import Mathlib

/-!
Verification development for the lathe-estimator-pro front-end.

JavaScript numbers are modelled as rationals (`ℚ`); `undefined`-able numeric
fields are modelled as `Option ℚ` with `none` standing for `undefined` (and
for `NaN` where the code immediately replaces `NaN` by `undefined`).
`Math.round` is modelled as `⌊x + 1/2⌋`, which is the rounding JS performs
(half-way values round toward positive infinity).
-/

/-- Model of JavaScript `Math.round`: round half toward positive infinity. -/
def jround (q : ℚ) : ℤ := ⌊q + 1 / 2⌋

/-- Rounding to one decimal place, as the code's `Math.round (x * 10) / 10`. -/
def jround10 (q : ℚ) : ℚ := (jround (q * 10) : ℚ) / 10

/-- Numeric value of a decimal digit character. -/
def digitVal (c : Char) : ℕ := c.toNat - 48

/-- Split a leading run of decimal digits off a character list. -/
def takeDigits : List Char → List ℕ × List Char
  | [] => ([], [])
  | c :: cs =>
    if c.isDigit then
      let r := takeDigits cs
      (digitVal c :: r.1, r.2)
    else ([], c :: cs)

/-- Value of a digit list read in base 10. -/
def digitsToNat (ds : List ℕ) : ℕ := ds.foldl (fun a d => 10 * a + d) 0

/-- Exponent digits of a float literal; an empty digit run yields 0, matching
`parseFloat`, which ignores an exponent marker not followed by digits. -/
def parseExpDigits (cs : List Char) : ℤ :=
  let r := takeDigits cs
  (digitsToNat r.1 : ℤ)

/-- Signed exponent part of a float literal. -/
def parseExp : List Char → ℤ
  | '-' :: cs => -(parseExpDigits cs)
  | '+' :: cs => parseExpDigits cs
  | cs => parseExpDigits cs

/-- Model of `parseFloat` on a character list already stripped of leading
whitespace and sign: longest prefix of the form `digits [. digits] [e exp]`
with at least one mantissa digit; `none` models a `NaN` outcome. -/
def parseFloatCore (cs : List Char) : Option ℚ :=
  let ip := takeDigits cs
  let fp : List ℕ × List Char :=
    match ip.2 with
    | '.' :: rest => takeDigits rest
    | _ => ([], ip.2)
  if ip.1.isEmpty ∧ fp.1.isEmpty then none
  else
    let mant : ℚ := (digitsToNat ip.1 : ℚ) + (digitsToNat fp.1 : ℚ) / (10 : ℚ) ^ fp.1.length
    let e : ℤ :=
      match fp.2 with
      | 'e' :: rest => parseExp rest
      | 'E' :: rest => parseExp rest
      | _ => 0
    let scale : ℚ := if 0 ≤ e then (10 : ℚ) ^ e.toNat else 1 / (10 : ℚ) ^ (-e).toNat
    some (mant * scale)

/-- Model of JavaScript `parseFloat` over rationals: skip leading whitespace,
read an optional sign and then the longest numeric prefix; `none` models a
`NaN` result (non-finite literals such as `Infinity` are outside the model). -/
def jsParseFloat (s : String) : Option ℚ :=
  let cs := s.data.dropWhile Char.isWhitespace
  match cs with
  | '-' :: rest => (parseFloatCore rest).map (fun q => -q)
  | '+' :: rest => parseFloatCore rest
  | _ => parseFloatCore cs

/-- One machining operation of the AI estimate (types.ts `MachiningOperation`).
`rpm` and `feedRate` are optional in the TypeScript interface. -/
structure MachiningOperation where
  name : String
  description : String
  estimatedTimeSeconds : ℚ
  toolType : String
  rpm : Option ℚ
  feedRate : Option ℚ
  deriving DecidableEq

/-- Placeholder operation used to totalise JS array indexing in the model. -/
def opDefault : MachiningOperation :=
  { name := "", description := "", estimatedTimeSeconds := 0, toolType := "",
    rpm := none, feedRate := none }

/-- The AI estimate record (types.ts `EstimationResult`). -/
structure EstimationResult where
  partName : String
  material : String
  stockDiameter : String
  stockInnerDiameter : Option String
  stockLength : String
  operations : List MachiningOperation
  totalTimeSeconds : ℚ
  difficultyRating : String
  notes : String
  sideMode : Option String
  deriving DecidableEq

/-- The two numeric fields `handleParamChange` can edit. -/
inductive ParamField
  | rpm
  | feedRate
  deriving DecidableEq

/-- Write an optional numeric value into the chosen field, as the code's
`currentOp[field] = isNaN(numValue) ? undefined : numValue`. -/
def setParam (op : MachiningOperation) (field : ParamField) (v : Option ℚ) :
    MachiningOperation :=
  match field with
  | .rpm => { op with rpm := v }
  | .feedRate => { op with feedRate := v }

/-- JS truthiness of an optional number: `undefined`, `0` (and `NaN`, which is
`none` here) are falsy. -/
def truthyNum (o : Option ℚ) : Bool := o.getD 0 ≠ 0

/-- The code's `value === '' ? 0 : parseFloat(value)`. -/
def effectiveParsed (value : String) : Option ℚ :=
  if value = "" then some 0 else jsParseFloat value

/-- Recalculation step of `handleParamChange` (EmptyState.tsx lines 654-672):
when the original operation has truthy time, rpm and feed, derive the work
factor from the original values and, if both effective new parameters are
strictly positive, replace the time by the rounded `workFactor / (rpm·feed)`. -/
def recalcOp (originalOp currentOp : MachiningOperation) : MachiningOperation :=
  if originalOp.estimatedTimeSeconds ≠ 0 ∧ truthyNum originalOp.rpm = true
      ∧ truthyNum originalOp.feedRate = true then
    let workFactor := originalOp.estimatedTimeSeconds * originalOp.rpm.getD 0
        * originalOp.feedRate.getD 0
    let newRpm := currentOp.rpm.getD 0
    let newFeed := currentOp.feedRate.getD 0
    if 0 < newRpm ∧ 0 < newFeed then
      { currentOp with estimatedTimeSeconds := jround10 (workFactor / (newRpm * newFeed)) }
    else currentOp
  else currentOp

/-- The updated operations array built by `handleParamChange`. -/
def updatedOperations (result localResult : EstimationResult) (index : ℕ)
    (field : ParamField) (value : String) : List MachiningOperation :=
  localResult.operations.set index
    (recalcOp (result.operations.getD index opDefault)
      (setParam (localResult.operations.getD index opDefault) field (effectiveParsed value)))

/-- Model of `handleParamChange` (EmptyState.tsx lines 644-684). `result` is
the original AI estimate prop, `localResult` the edited state. Out-of-range
indices make the JS code throw on `originalOp.estimatedTimeSeconds` before any
state update, which the model renders as `none`. -/
def handleParamChange (result localResult : EstimationResult) (index : ℕ)
    (field : ParamField) (value : String) : Option EstimationResult :=
  if index < result.operations.length ∧ index < localResult.operations.length then
    let newOperations := updatedOperations result localResult index field value
    some { localResult with
             operations := newOperations,
             totalTimeSeconds :=
               jround10 ((newOperations.map (fun op => op.estimatedTimeSeconds)).sum) }
  else none

/-- Does the character list start with the given pattern? -/
def listStartsWith : List Char → List Char → Bool
  | _, [] => true
  | [], _ :: _ => false
  | h :: hs, n :: ns => h == n && listStartsWith hs ns

/-- Substring test on character lists, as JS `String.prototype.includes`. -/
def containsSub : List Char → List Char → Bool
  | [], ns => ns.isEmpty
  | h :: hs, ns => listStartsWith (h :: hs) ns || containsSub hs ns

/-- JS `hay.includes(needle)` on strings. -/
def containsStr (hay needle : String) : Bool := containsSub hay.data needle.data

/-- Does the (lower-cased) name contain one of the keywords? -/
def containsAny (n : String) (keywords : List String) : Bool :=
  keywords.any (fun k => containsStr n k)

/-- The OP20 / side-2 trigger keywords of `splitTimes` (EmptyState.tsx line
737); the two non-ASCII entries are copied byte-for-byte from the source. -/
def op20Keywords : List String := ["op20", "side 2", "Á¨¨‰∫åÂ∫è", "ËÉåÈù¢"]

/-- The flip / sub-spindle trigger keywords of `splitTimes` (EmptyState.tsx
line 743), copied byte-for-byte from the source. -/
def flipKeywords : List String := ["flip", "ÊéâÈ†≠", "ÂèçËΩâ", "Êé•Êñô", "ÂâØ‰∏ªËª∏"]

/-- One `forEach` step of `splitTimes`: state is `(l1, l2, isSide2)`.
`String.toLower` models JS `toLowerCase` (the claims do not depend on the
case-mapping of non-ASCII characters). -/
def splitStep (s : ℚ × ℚ × Bool) (op : MachiningOperation) : ℚ × ℚ × Bool :=
  let n := op.name.toLower
  let isSide2 := s.2.2 || containsAny n op20Keywords
  if containsAny n flipKeywords then
    (s.1 + op.estimatedTimeSeconds, s.2.1, true)
  else if isSide2 then
    (s.1, s.2.1 + op.estimatedTimeSeconds, isSide2)
  else
    (s.1 + op.estimatedTimeSeconds, s.2.1, isSide2)

/-- Accumulator pass of `splitTimes` over the operations. -/
def splitFold (ops : List MachiningOperation) : ℚ × ℚ × Bool :=
  ops.foldl splitStep ((0 : ℚ), (0 : ℚ), false)

/-- Model of the `splitTimes` memo (EmptyState.tsx lines 728-757): the two
per-side buckets, each rounded to the nearest integer. -/
def splitTimes (ops : List MachiningOperation) : ℤ × ℤ :=
  (jround (splitFold ops).1, jround (splitFold ops).2.1)

/-- Exact rational value of the IEEE-754 double `Math.PI`. -/
def mathPI : ℚ := 884279719003555 / 281474976710656

/-- Model of `parseDim` in CostAnalysisCard: delete every character other
than decimal digits and `.`, parse as a float, and fall back to 0 when the
value is missing, empty or unparsable. -/
def parseDim : Option String → ℚ
  | none => 0
  | some s =>
    if s = "" then 0
    else (jsParseFloat (String.mk (s.data.filter fun c => c.isDigit || c == '.'))).getD 0

/-- Result record of the CostAnalysisCard `calculation` memo. -/
structure CostCalculation where
  volume : ℚ
  weight : ℚ
  machiningCost : ℚ
  materialCost : ℚ
  totalCost : ℚ
  deriving DecidableEq

/-- Model of the CostAnalysisCard `useMemo` calculation: hollow-cylinder
volume from the parsed dimensions, weight from the density, machining cost
from the hourly rate and material cost from the per-kg price. -/
def calculation (odStr lengthStr : String) (idStr : Option String)
    (totalTimeSeconds hourlyRate materialPriceKg customDensity : ℚ) : CostCalculation :=
  let od := parseDim (some odStr)
  let id := parseDim idStr
  let len := parseDim (some lengthStr)
  let density := customDensity
  let rOut := od / 2
  let rIn := id / 2
  let volumeMm3 := mathPI * (rOut ^ 2 - rIn ^ 2) * len
  let weightKg := volumeMm3 / 1000 * density / 1000
  let machiningCost := totalTimeSeconds / 3600 * hourlyRate
  let materialCost := weightKg * materialPriceKg
  { volume := volumeMm3, weight := weightKg, machiningCost := machiningCost,
    materialCost := materialCost, totalCost := machiningCost + materialCost }

/-- Analysis configuration (geminiService.ts `AnalysisConfig`); the string
literal unions `sides`, `strategy` and `spindleMode` are kept as strings. -/
structure AnalysisConfig where
  material : String
  od : String
  id : String
  length : String
  sides : String
  strategy : String
  spindleMode : String
  userRemarks : Option String
  apiKey : Option String
  deriving DecidableEq

/-- Stored history entry (storageService.ts `HistoryItem`). -/
structure HistoryItem where
  id : String
  timestamp : ℤ
  result : EstimationResult
  config : AnalysisConfig
  thumbnail : String
  previewImage : String
  deriving DecidableEq

/-- Capacity bound on the stored history (storageService.ts line 14). -/
def MAX_ITEMS : ℕ := 10

/-- Modelled localStorage cell under `lathe_estimator_history`: `none` when no
value is stored, `some none` when a value is stored but `JSON.parse` throws on
it, `some (some items)` when it parses as a history list. -/
def HistoryStorage : Type := Option (Option (List HistoryItem))

/-- Model of `getHistory`: empty list when the key is absent or the stored
value fails to parse (the `catch` branch), otherwise the parsed list. -/
def getHistory : HistoryStorage → List HistoryItem
  | none => []
  | some none => []
  | some (some items) => items

/-- Model of the list written by a successful `saveHistoryItem` call: the new
item (whose thumbnails are produced by the canvas compression pipeline and are
treated as given strings) prepended and truncated to `MAX_ITEMS`. -/
def saveHistoryItem (storage : HistoryStorage) (newItem : HistoryItem) :
    List HistoryItem :=
  (newItem :: getHistory storage).take MAX_ITEMS

/-- Model of `deleteHistoryItem`: filter out the entries with the given id and
store the rest; `setItemOk = false` models `localStorage.setItem` throwing, in
which case the `catch` branch returns the empty list. -/
def deleteHistoryItem (storage : HistoryStorage) (setItemOk : Bool) (id : String) :
    List HistoryItem :=
  if setItemOk then (getHistory storage).filter (fun item => item.id != id) else []

/-- Environment sources probed by `getEnvApiKey` (geminiService.ts lines 6-42);
`none` models an unavailable or undefined binding. -/
structure ApiEnv where
  importMetaViteApiKey : Option String
  processViteApiKey : Option String
  processReactAppApiKey : Option String
  processApiKey : Option String
  windowApiKey : Option String
  deriving DecidableEq

/-- JS truthiness of an optional string: `undefined` and `""` are falsy. -/
def truthyStr : Option String → Bool
  | none => false
  | some s => !(s == "")

/-- Model of `getEnvApiKey`: first truthy source in order, else `""`. -/
def getEnvApiKey (env : ApiEnv) : String :=
  if truthyStr env.importMetaViteApiKey then env.importMetaViteApiKey.getD ""
  else if truthyStr env.processViteApiKey then env.processViteApiKey.getD ""
  else if truthyStr env.processReactAppApiKey then env.processReactAppApiKey.getD ""
  else if truthyStr env.processApiKey then env.processApiKey.getD ""
  else if truthyStr env.windowApiKey then env.windowApiKey.getD ""
  else ""

/-- The message of the error thrown when no API key is available
(geminiService.ts line 68). -/
def API_KEY_MISSING_MESSAGE : String :=
  "API_KEY_MISSING: 請在 Vercel 設定環境變數，或在網頁下方直接輸入 API Key。"

/-- Outcome of the key-resolution phase of `analyzeBlueprint`: either the
throw of the missing-key error, or a request using the resolved key. -/
inductive KeyCheck
  | missingKey (message : String)
  | request (apiKey : String)
  deriving DecidableEq

/-- The code's `config.apiKey?.trim() || getEnvApiKey()`. -/
def effectiveApiKey (config : AnalysisConfig) (env : ApiEnv) : String :=
  let t := (config.apiKey.map String.trim).getD ""
  if t = "" then getEnvApiKey env else t

/-- Key-resolution phase of `analyzeBlueprint` (geminiService.ts lines 64-72):
throw before any client is constructed when the effective key is empty. -/
def analyzeBlueprintKeyCheck (config : AnalysisConfig) (env : ApiEnv) : KeyCheck :=
  let k := effectiveApiKey config env
  if k = "" then .missingKey API_KEY_MISSING_MESSAGE else .request k

/-- The rejection message of the PDF conversion path (App.tsx line 63). -/
def PDF_ERROR_MESSAGE : String := "PDF 轉換失敗，請確認檔案未損壞或嘗試轉存為圖片。"

/-- Inputs to `fileToGenerativePart`: the file's mime type together with the
outcomes of the two external pipelines it may invoke. `pdfRenderDataUrl` is
the data URL produced by rendering page 1 through pdf.js onto a canvas and
encoding it as JPEG, `none` when that pipeline throws; `readerDataUrl` is the
`FileReader.readAsDataURL` result used for non-PDF files, `none` when the
reader fires `onerror` instead of completing. -/
structure BrowserFile where
  type : String
  pdfRenderDataUrl : Option String
  readerDataUrl : Option String
  deriving DecidableEq

/-- Settlement of the `fileToGenerativePart` promise: resolution with a part,
rejection with a `new Error(message)`, or rejection with the FileReader's
error event (the code's `reader.onerror = reject` passes the event itself). -/
inductive FilePart
  | resolved (base64 : String) (mimeType : String)
  | rejected (message : String)
  | rejectedEvent
  deriving DecidableEq

/-- The code's `dataUrl.split(',')[1]`: the payload after the first comma (the
model substitutes `""` for the out-of-range access a comma-less string causes). -/
def dataUrlPayload (s : String) : String := (s.splitOn ",").getD 1 ""

/-- Model of `fileToGenerativePart` (App.tsx lines 19-82): PDFs are rasterised
to a JPEG data URL (or rejected with the PDF error), other files are resolved
with their own mime type and base64 content when the FileReader load
completes, and rejected with the reader's error event when it does not. -/
def fileToGenerativePart (file : BrowserFile) : FilePart :=
  if file.type = "application/pdf" then
    match file.pdfRenderDataUrl with
    | some dataUrl => .resolved (dataUrlPayload dataUrl) "image/jpeg"
    | none => .rejected PDF_ERROR_MESSAGE
  else
    match file.readerDataUrl with
    | some dataUrl => .resolved (dataUrlPayload dataUrl) file.type
    | none => .rejectedEvent

/-- The three string views of a caught JS error used by the error classifier:
`err.toString()`, `err.message` and `JSON.stringify(err)`. -/
structure JsError where
  toStringVal : String
  message : String
  jsonString : String
  deriving DecidableEq

/-- Model of the `catch` classifier of `handleAnalyze` (App.tsx lines 107-125). -/
def analysisErrorMessage (e : JsError) : String :=
  if containsStr e.message "API key" || containsStr e.toStringVal "API key"
      || containsStr e.jsonString "API_KEY" || containsStr e.message "400"
      || containsStr e.message "403" then
    "⚠️ API Key 設定無效。請檢查 Vercel 環境變數，或直接在網頁下方輸入 API Key。"
  else if containsStr e.message "503" || containsStr e.message "Overloaded" then
    "服務暫時繁忙 (Model Overloaded)，請稍後再試。"
  else if containsStr e.message "PDF" then
    "PDF 處理失敗 (請確認檔案是否加密或損壞)。"
  else
    "分析圖片失敗。請確認圖片清晰度並重試。"

/-- App states (types.ts `AppState`). -/
inductive AppState
  | IDLE
  | ANALYZING
  | SUCCESS
  | ERROR
  deriving DecidableEq

/-- Outcome of the single `ai.models.generateContent` request: a response
whose `text` may be present or absent, or a thrown error. -/
inductive NetworkOutcome
  | success (text : Option String)
  | failure (e : JsError)
  deriving DecidableEq

/-- Run of `analyzeBlueprint` past the key check: either a thrown error or a
returned estimate, together with the number of network requests issued. -/
inductive AnalyzeRun
  | threw (e : JsError) (networkRequests : ℕ)
  | returned (r : EstimationResult) (networkRequests : ℕ)
  deriving DecidableEq

/-- A JS `new Error(message)` as seen by the classifier: `toString()` is
`"Error: " ++ message` and `JSON.stringify` of a plain Error is `"\x7b\x7d"`. -/
def errorOfMessage (message : String) : JsError :=
  { toStringVal := "Error: " ++ message, message := message, jsonString := "\x7b\x7d" }

/-- The FileReader error event as seen by the classifier: a ProgressEvent has
no `message` (so `err?.message || ''` is empty) and stringifies as
`[object ProgressEvent]`; its exact JSON body contains none of the classifier
keywords, so it is rendered here as the empty object. -/
def readerErrorEvent : JsError :=
  { toStringVal := "[object ProgressEvent]", message := "", jsonString := "\x7b\x7d" }

/-- Model of one `analyzeBlueprint` invocation (geminiService.ts lines 56-276):
the missing-key error is thrown before any request; otherwise exactly one
request is made and its outcome is parsed (`parseOutcome` stands for
`JSON.parse(response.text)`) with the configured `sides` injected as
`sideMode`. -/
def analyzeBlueprintRun (config : AnalysisConfig) (env : ApiEnv)
    (net : NetworkOutcome) (parseOutcome : Except JsError EstimationResult) :
    AnalyzeRun :=
  match analyzeBlueprintKeyCheck config env with
  | .missingKey m => .threw (errorOfMessage m) 0
  | .request _ =>
    match net with
    | .failure e => .threw e 1
    | .success none => .threw (errorOfMessage "Gemini 沒有回傳資料") 1
    | .success (some _) =>
      match parseOutcome with
      | .error e => .threw e 1
      | .ok parsed => .returned { parsed with sideMode := some config.sides } 1

/-- Observable outcome of one `handleAnalyze` invocation: how many times
`analyzeBlueprint` was called, how many network requests those calls issued,
and the final app state with its result or error message. -/
structure AppRun where
  analyzeCalls : ℕ
  networkRequests : ℕ
  finalState : AppState
  result : Option EstimationResult
  errorMsg : Option String
  deriving DecidableEq

/-- Model of `handleAnalyze` (App.tsx lines 84-129): convert the file, call
`analyzeBlueprint` exactly once on success, and map any thrown error to the
ERROR state with a classified message (the previous `result` is untouched on
error, rendered here as `none`). -/
def handleAnalyze (conv : FilePart) (config : AnalysisConfig) (env : ApiEnv)
    (net : NetworkOutcome) (parseOutcome : Except JsError EstimationResult) :
    AppRun :=
  match conv with
  | .rejected m =>
    { analyzeCalls := 0, networkRequests := 0, finalState := .ERROR,
      result := none, errorMsg := some (analysisErrorMessage (errorOfMessage m)) }
  | .rejectedEvent =>
    { analyzeCalls := 0, networkRequests := 0, finalState := .ERROR,
      result := none, errorMsg := some (analysisErrorMessage readerErrorEvent) }
  | .resolved _ _ =>
    match analyzeBlueprintRun config env net parseOutcome with
    | .threw e n =>
      { analyzeCalls := 1, networkRequests := n, finalState := .ERROR,
        result := none, errorMsg := some (analysisErrorMessage e) }
    | .returned r n =>
      { analyzeCalls := 1, networkRequests := n, finalState := .SUCCESS,
        result := some r, errorMsg := none }

/-- Iterated application of `handleParamChange` at a fixed index, threading the
edited state through a sequence of `(field, value)` edits as the React state
update loop does. -/
def applyEdits (result start : EstimationResult) (index : ℕ)
    (edits : List (ParamField × String)) : Option EstimationResult :=
  edits.foldl (fun acc e => acc.bind fun st => handleParamChange result st index e.1 e.2)
    (some start)

/-- Concrete operation used to exercise the edit path. -/
def wOp : MachiningOperation :=
  { name := "OD rough", description := "", estimatedTimeSeconds := 60, toolType := "",
    rpm := some 1000, feedRate := some (1 / 5) }

/-- Concrete AI estimate used to exercise the edit path. -/
def wResult : EstimationResult :=
  { partName := "P", material := "S45C", stockDiameter := "30", stockInnerDiameter := none,
    stockLength := "50", operations := [wOp], totalTimeSeconds := 60,
    difficultyRating := "Low", notes := "", sideMode := none }

/-- The state produced by editing `wResult`'s operation 0 rpm to 2000. -/
def wEdited : EstimationResult :=
  { wResult with
      operations := [{ wOp with rpm := some 2000, estimatedTimeSeconds := 30 }],
      totalTimeSeconds := 30 }

/-- Concrete analysis configuration with no UI key. -/
def wConfig : AnalysisConfig :=
  { material := "S45C", od := "30", id := "0", length := "50", sides := "2",
    strategy := "standard", spindleMode := "G96", userRemarks := none,
    apiKey := none }

/-- Concrete environment in which every fallback is absent or empty. -/
def wEnv : ApiEnv :=
  { importMetaViteApiKey := none, processViteApiKey := none,
    processReactAppApiKey := none, processApiKey := none, windowApiKey := some "" }

/-- Concrete stored history entry with id `a`. -/
def wItemA : HistoryItem :=
  { id := "a", timestamp := 1, result := wResult, config := wConfig,
    thumbnail := "", previewImage := "" }

/-- Concrete stored history entry with id `b`. -/
def wItemB : HistoryItem :=
  { id := "b", timestamp := 2, result := wResult, config := wConfig,
    thumbnail := "", previewImage := "" }

/-- Concrete PDF upload whose rasterisation succeeds. -/
def wPdfFile : BrowserFile :=
  { type := "application/pdf", pdfRenderDataUrl := some "data:image/jpeg;base64,QUJD",
    readerDataUrl := none }

/-- Concrete non-PDF upload whose FileReader read fails. -/
def wReaderFail : BrowserFile :=
  { type := "image/png", pdfRenderDataUrl := none, readerDataUrl := none }

/-- Concrete non-PDF upload whose FileReader read succeeds. -/
def wPngFile : BrowserFile :=
  { type := "image/png", pdfRenderDataUrl := none,
    readerDataUrl := some "data:image/png;base64,QUJD" }

lemma getD_set_self {α : Type} (l : List α) (i : ℕ) (a d : α) (h : i < l.length) :
    (l.set i a).getD i d = a := by
  simp [List.getD_eq_getElem?_getD, List.getElem?_set_self h]

lemma handleParamChange_eq_some {result localResult st : EstimationResult} {index : ℕ}
    {field : ParamField} {value : String}
    (h : handleParamChange result localResult index field value = some st) :
    index < result.operations.length ∧ index < localResult.operations.length ∧
    st = { localResult with
             operations := updatedOperations result localResult index field value,
             totalTimeSeconds :=
               jround10 (((updatedOperations result localResult index field value).map
                 (fun op => op.estimatedTimeSeconds)).sum) } := by
  unfold handleParamChange at h
  split at h
  · next hin =>
    simp only [Option.some.injEq] at h
    exact ⟨hin.1, hin.2, h.symm⟩
  · exact absurd h (by simp)

lemma handleParamChange_getD {result localResult st : EstimationResult} {index : ℕ}
    {field : ParamField} {value : String}
    (h : handleParamChange result localResult index field value = some st) :
    st.operations.getD index opDefault
      = recalcOp (result.operations.getD index opDefault)
          (setParam (localResult.operations.getD index opDefault) field
            (effectiveParsed value)) := by
  obtain ⟨-, h2, rfl⟩ := handleParamChange_eq_some h
  exact getD_set_self _ _ _ _ h2

lemma recalcOp_rpm (o c : MachiningOperation) : (recalcOp o c).rpm = c.rpm := by
  simp only [recalcOp]
  split
  · split <;> rfl
  · rfl

lemma recalcOp_feedRate (o c : MachiningOperation) : (recalcOp o c).feedRate = c.feedRate := by
  simp only [recalcOp]
  split
  · split <;> rfl
  · rfl

lemma setParam_time (op : MachiningOperation) (f : ParamField) (v : Option ℚ) :
    (setParam op f v).estimatedTimeSeconds = op.estimatedTimeSeconds := by
  cases f <;> rfl

lemma recalcOp_time_pos (o c : MachiningOperation)
    (ho : o.estimatedTimeSeconds ≠ 0 ∧ truthyNum o.rpm = true ∧ truthyNum o.feedRate = true)
    (hr : 0 < c.rpm.getD 0) (hf : 0 < c.feedRate.getD 0) :
    (recalcOp o c).estimatedTimeSeconds
      = jround10 (o.estimatedTimeSeconds * o.rpm.getD 0 * o.feedRate.getD 0
          / (c.rpm.getD 0 * c.feedRate.getD 0)) := by
  simp only [recalcOp]
  rw [if_pos ho, if_pos (⟨hr, hf⟩ : (0:ℚ) < c.rpm.getD 0 ∧ (0:ℚ) < c.feedRate.getD 0)]

lemma recalcOp_time_notpos (o c : MachiningOperation)
    (h : ¬((0:ℚ) < c.rpm.getD 0 ∧ (0:ℚ) < c.feedRate.getD 0)) :
    (recalcOp o c).estimatedTimeSeconds = c.estimatedTimeSeconds := by
  by_cases ho : o.estimatedTimeSeconds ≠ 0 ∧ truthyNum o.rpm = true
      ∧ truthyNum o.feedRate = true
  · simp only [recalcOp, if_pos ho, if_neg h]
  · simp only [recalcOp, if_neg ho]

lemma recalcOp_time_nottruthy (o c : MachiningOperation)
    (h : ¬(o.estimatedTimeSeconds ≠ 0 ∧ truthyNum o.rpm = true ∧ truthyNum o.feedRate = true)) :
    (recalcOp o c).estimatedTimeSeconds = c.estimatedTimeSeconds := by
  simp only [recalcOp]
  rw [if_neg h]

lemma handleParamChange_pos_time {result localResult st : EstimationResult} {index : ℕ}
    {field : ParamField} {value : String}
    (h : handleParamChange result localResult index field value = some st)
    (ho : (result.operations.getD index opDefault).estimatedTimeSeconds ≠ 0
        ∧ truthyNum (result.operations.getD index opDefault).rpm = true
        ∧ truthyNum (result.operations.getD index opDefault).feedRate = true)
    (hr : 0 < (st.operations.getD index opDefault).rpm.getD 0)
    (hf : 0 < (st.operations.getD index opDefault).feedRate.getD 0) :
    (st.operations.getD index opDefault).estimatedTimeSeconds
      = jround10 ((result.operations.getD index opDefault).estimatedTimeSeconds
          * (result.operations.getD index opDefault).rpm.getD 0
          * (result.operations.getD index opDefault).feedRate.getD 0
          / ((st.operations.getD index opDefault).rpm.getD 0
              * (st.operations.getD index opDefault).feedRate.getD 0)) := by
  have e := handleParamChange_getD h
  rw [e, recalcOp_rpm] at hr
  rw [e, recalcOp_feedRate] at hf
  rw [e, recalcOp_time_pos _ _ ho hr hf, recalcOp_rpm, recalcOp_feedRate]

/-- C4: after every completed invocation of `handleParamChange`, the resulting
`totalTimeSeconds` is the sum of the updated operations' `estimatedTimeSeconds`
rounded to one decimal place. -/
theorem handleParamChange_total_time (result localResult st : EstimationResult)
    (index : ℕ) (field : ParamField) (value : String)
    (h : handleParamChange result localResult index field value = some st) :
    st.totalTimeSeconds
      = jround10 ((st.operations.map (fun op => op.estimatedTimeSeconds)).sum) := by
  obtain ⟨-, -, rfl⟩ := handleParamChange_eq_some h
  rfl

/-- C4 witness: a concrete completed invocation. -/
theorem handleParamChange_total_time_witness :
    wEdited.totalTimeSeconds
      = jround10 ((wEdited.operations.map (fun op => op.estimatedTimeSeconds)).sum) :=
  handleParamChange_total_time wResult wResult wEdited 0 ParamField.rpm "2000"
    (by set_option maxRecDepth 4000 in with_unfolding_all decide)

/-- C1: in every completed `handleParamChange` invocation whose original
operation has nonzero time, rpm and feed, the new time is the 0.1-rounded
`origTime·origRpm·origFeed / (newRpm·newFeed)` when both effective new
parameters are strictly positive; when either effective parameter is zero, or
the original operation lacks one of the three fields (is not truthy in all
three), the operation's time is left unchanged. -/
theorem handleParamChange_recalc (result localResult st : EstimationResult)
    (index : ℕ) (field : ParamField) (value : String)
    (h : handleParamChange result localResult index field value = some st) :
    (((result.operations.getD index opDefault).estimatedTimeSeconds ≠ 0
        ∧ truthyNum (result.operations.getD index opDefault).rpm = true
        ∧ truthyNum (result.operations.getD index opDefault).feedRate = true) →
      ((0 < (st.operations.getD index opDefault).rpm.getD 0
          ∧ 0 < (st.operations.getD index opDefault).feedRate.getD 0 →
        (st.operations.getD index opDefault).estimatedTimeSeconds
          = jround10 ((result.operations.getD index opDefault).estimatedTimeSeconds
              * (result.operations.getD index opDefault).rpm.getD 0
              * (result.operations.getD index opDefault).feedRate.getD 0
              / ((st.operations.getD index opDefault).rpm.getD 0
                  * (st.operations.getD index opDefault).feedRate.getD 0)))
      ∧ ((st.operations.getD index opDefault).rpm.getD 0 = 0
            ∨ (st.operations.getD index opDefault).feedRate.getD 0 = 0 →
        (st.operations.getD index opDefault).estimatedTimeSeconds
          = (localResult.operations.getD index opDefault).estimatedTimeSeconds)))
    ∧ (¬((result.operations.getD index opDefault).estimatedTimeSeconds ≠ 0
          ∧ truthyNum (result.operations.getD index opDefault).rpm = true
          ∧ truthyNum (result.operations.getD index opDefault).feedRate = true) →
      (st.operations.getD index opDefault).estimatedTimeSeconds
        = (localResult.operations.getD index opDefault).estimatedTimeSeconds) := by
  have e := handleParamChange_getD h
  constructor
  · intro ho
    constructor
    · intro ⟨hr, hf⟩
      exact handleParamChange_pos_time h ho hr hf
    · intro hz
      have hnp : ¬((0:ℚ) < (st.operations.getD index opDefault).rpm.getD 0
          ∧ (0:ℚ) < (st.operations.getD index opDefault).feedRate.getD 0) := by
        rcases hz with hz | hz <;> intro ⟨hr, hf⟩
        · exact absurd hz (ne_of_gt hr)
        · exact absurd hz (ne_of_gt hf)
      rw [e, recalcOp_rpm, recalcOp_feedRate] at hnp
      rw [e, recalcOp_time_notpos _ _ hnp, setParam_time]
  · intro ho
    rw [e, recalcOp_time_nottruthy _ _ ho, setParam_time]

/-- C1 witness: editing the rpm of `wResult`'s only operation to 2000 yields
the rounded recomputed time. -/
theorem handleParamChange_recalc_witness :
    (wEdited.operations.getD 0 opDefault).estimatedTimeSeconds
      = jround10 ((wResult.operations.getD 0 opDefault).estimatedTimeSeconds
          * (wResult.operations.getD 0 opDefault).rpm.getD 0
          * (wResult.operations.getD 0 opDefault).feedRate.getD 0
          / ((wEdited.operations.getD 0 opDefault).rpm.getD 0
              * (wEdited.operations.getD 0 opDefault).feedRate.getD 0)) :=
  ((handleParamChange_recalc wResult wResult wEdited 0 ParamField.rpm "2000"
      (by set_option maxRecDepth 4000 in with_unfolding_all decide)).1
    (by with_unfolding_all decide)).1
    (by with_unfolding_all decide)

lemma applyEdits_append_single (result start : EstimationResult) (index : ℕ)
    (edits : List (ParamField × String)) (e : ParamField × String) :
    applyEdits result start index (edits ++ [e])
      = (applyEdits result start index edits).bind
          (fun st => handleParamChange result st index e.1 e.2) := by
  unfold applyEdits
  rw [List.foldl_append]
  rfl

lemma applyEdits_last {result start st : EstimationResult} {index : ℕ}
    {edits : List (ParamField × String)} (hne : edits ≠ [])
    (h : applyEdits result start index edits = some st) :
    ∃ mid f v, handleParamChange result mid index f v = some st := by
  obtain ⟨ys, e, rfl⟩ := (List.eq_nil_or_concat' edits).resolve_left hne
  rw [applyEdits_append_single] at h
  obtain ⟨mid, -, hstep⟩ := Option.bind_eq_some.mp h
  exact ⟨mid, e.1, e.2, hstep⟩

/-- C5: with the geometry constant taken from the original result, the time of
operation `index` after any nonempty sequence of `handleParamChange` edits at
that index depends only on the final positive `(rpm, feedRate)` pair; in
particular a final pair equal to the original one restores the original time
up to the 0.1-second rounding. -/
theorem handleParamChange_path_independent (result st1 st2 : EstimationResult)
    (index : ℕ) (edits1 edits2 : List (ParamField × String))
    (hne1 : edits1 ≠ []) (hne2 : edits2 ≠ [])
    (h1 : applyEdits result result index edits1 = some st1)
    (h2 : applyEdits result result index edits2 = some st2)
    (ho : (result.operations.getD index opDefault).estimatedTimeSeconds ≠ 0
        ∧ truthyNum (result.operations.getD index opDefault).rpm = true
        ∧ truthyNum (result.operations.getD index opDefault).feedRate = true)
    (hrpm : (st1.operations.getD index opDefault).rpm.getD 0
        = (st2.operations.getD index opDefault).rpm.getD 0)
    (hfeed : (st1.operations.getD index opDefault).feedRate.getD 0
        = (st2.operations.getD index opDefault).feedRate.getD 0)
    (hr : 0 < (st1.operations.getD index opDefault).rpm.getD 0)
    (hf : 0 < (st1.operations.getD index opDefault).feedRate.getD 0) :
    (st1.operations.getD index opDefault).estimatedTimeSeconds
      = (st2.operations.getD index opDefault).estimatedTimeSeconds
    ∧ ((st1.operations.getD index opDefault).rpm.getD 0
          = (result.operations.getD index opDefault).rpm.getD 0
        ∧ (st1.operations.getD index opDefault).feedRate.getD 0
          = (result.operations.getD index opDefault).feedRate.getD 0 →
      (st1.operations.getD index opDefault).estimatedTimeSeconds
        = jround10 ((result.operations.getD index opDefault).estimatedTimeSeconds)) := by
  obtain ⟨m1, f1, v1, hs1⟩ := applyEdits_last hne1 h1
  obtain ⟨m2, f2, v2, hs2⟩ := applyEdits_last hne2 h2
  have e1 := handleParamChange_pos_time hs1 ho hr hf
  have e2 := handleParamChange_pos_time hs2 ho (hrpm ▸ hr) (hfeed ▸ hf)
  constructor
  · rw [e1, e2, hrpm, hfeed]
  · rintro ⟨er, ef⟩
    rw [e1, er, ef]
    congr 1
    have hr0 : (result.operations.getD index opDefault).rpm.getD 0 ≠ 0 :=
      ne_of_gt (er ▸ hr)
    have hf0 : (result.operations.getD index opDefault).feedRate.getD 0 ≠ 0 :=
      ne_of_gt (ef ▸ hf)
    rw [mul_assoc, mul_div_assoc, div_self (mul_ne_zero hr0 hf0), mul_one]

/-- C5 witness: re-entering the original rpm (one edit) and re-entering the
original feed (another one-edit sequence) both restore the rounded original
time. -/
theorem handleParamChange_path_independent_witness :
    (wResult.operations.getD 0 opDefault).estimatedTimeSeconds
      = jround10 ((wResult.operations.getD 0 opDefault).estimatedTimeSeconds) :=
  (handleParamChange_path_independent wResult wResult wResult 0
      [(ParamField.rpm, "1000")] [(ParamField.feedRate, "0.2")]
      (by decide) (by decide)
      (by set_option maxRecDepth 4000 in with_unfolding_all decide)
      (by set_option maxRecDepth 4000 in with_unfolding_all decide)
      (by with_unfolding_all decide)
      rfl rfl
      (by with_unfolding_all decide) (by with_unfolding_all decide)).2 ⟨rfl, rfl⟩

lemma splitStep_sum (s : ℚ × ℚ × Bool) (op : MachiningOperation) :
    (splitStep s op).1 + (splitStep s op).2.1 = s.1 + s.2.1 + op.estimatedTimeSeconds := by
  simp only [splitStep]
  split
  · dsimp only
    ring
  · split <;> (dsimp only; ring)

lemma splitFold_sum (ops : List MachiningOperation) (s : ℚ × ℚ × Bool) :
    (ops.foldl splitStep s).1 + (ops.foldl splitStep s).2.1
      = s.1 + s.2.1 + (ops.map (fun op => op.estimatedTimeSeconds)).sum := by
  induction ops generalizing s with
  | nil => simp
  | cons op rest ih =>
    simp only [List.foldl_cons, List.map_cons, List.sum_cons]
    rw [ih (splitStep s op), splitStep_sum]
    ring

/-- C3: `splitTimes` assigns each operation's time to exactly one of the two
buckets: before the final per-bucket rounding the buckets sum to the total of
all operations' times, and the returned pair is the two buckets rounded to the
nearest integer. -/
theorem splitTimes_conserves_total (ops : List MachiningOperation) :
    (splitFold ops).1 + (splitFold ops).2.1
      = (ops.map (fun op => op.estimatedTimeSeconds)).sum
    ∧ splitTimes ops = (jround (splitFold ops).1, jround (splitFold ops).2.1) := by
  refine ⟨?_, rfl⟩
  have h := splitFold_sum ops ((0 : ℚ), (0 : ℚ), false)
  unfold splitFold
  rw [h]
  ring

/-- C2: the CostAnalysisCard calculation derives the weight from the parsed
stock geometry and the density by the hollow-cylinder formula, the machining
cost from the total time and hourly rate, the material cost from the weight
and per-kg price, and the total as their sum. -/
theorem calculation_cost_model (odStr lengthStr : String) (idStr : Option String)
    (totalTimeSeconds hourlyRate materialPriceKg customDensity : ℚ) :
    (calculation odStr lengthStr idStr totalTimeSeconds hourlyRate materialPriceKg
        customDensity).weight
      = mathPI * ((parseDim (some odStr) / 2) ^ 2 - (parseDim idStr / 2) ^ 2)
          * parseDim (some lengthStr) * customDensity / 10 ^ 6
    ∧ (calculation odStr lengthStr idStr totalTimeSeconds hourlyRate materialPriceKg
        customDensity).machiningCost = totalTimeSeconds / 3600 * hourlyRate
    ∧ (calculation odStr lengthStr idStr totalTimeSeconds hourlyRate materialPriceKg
        customDensity).materialCost
      = (calculation odStr lengthStr idStr totalTimeSeconds hourlyRate materialPriceKg
          customDensity).weight * materialPriceKg
    ∧ (calculation odStr lengthStr idStr totalTimeSeconds hourlyRate materialPriceKg
        customDensity).totalCost
      = (calculation odStr lengthStr idStr totalTimeSeconds hourlyRate materialPriceKg
          customDensity).machiningCost
        + (calculation odStr lengthStr idStr totalTimeSeconds hourlyRate materialPriceKg
            customDensity).materialCost := by
  refine ⟨?_, rfl, rfl, rfl⟩
  simp only [calculation]
  ring

/-- C6: a successful `saveHistoryItem` stores the new item prepended to the
previously stored list truncated to at most `MAX_ITEMS = 10` entries, so the
stored history never exceeds 10 items and the newest item is first. -/
theorem saveHistoryItem_capacity_order (storage : HistoryStorage) (newItem : HistoryItem) :
    saveHistoryItem storage newItem = (newItem :: getHistory storage).take MAX_ITEMS
    ∧ (saveHistoryItem storage newItem).length ≤ MAX_ITEMS
    ∧ (saveHistoryItem storage newItem).head? = some newItem := by
  refine ⟨rfl, ?_, ?_⟩
  · rw [saveHistoryItem, List.length_take]
    exact min_le_left _ _
  · rfl

/-- C10: `getHistory` returns the empty list when the stored value is absent
or unparsable; `deleteHistoryItem` removes exactly the entries whose id equals
the argument, preserving the relative order of the rest, and falls back to the
empty list when storing throws. -/
theorem history_read_delete_total (storage : HistoryStorage) (id : String)
    (setItemOk : Bool) :
    getHistory none = [] ∧ getHistory (some none) = []
    ∧ (setItemOk = true →
        List.Sublist (deleteHistoryItem storage setItemOk id) (getHistory storage)
        ∧ ∀ item, item ∈ deleteHistoryItem storage setItemOk id
            ↔ item ∈ getHistory storage ∧ item.id ≠ id)
    ∧ (setItemOk = false → deleteHistoryItem storage setItemOk id = []) := by
  refine ⟨rfl, rfl, ?_, ?_⟩
  · intro hok
    subst hok
    constructor
    · simp [deleteHistoryItem]
    · intro item
      simp [deleteHistoryItem, List.mem_filter]
  · intro hnot
    subst hnot
    rfl

/-- C10 witness: deleting id `a` from a two-item history keeps exactly the
other item in order. -/
theorem history_read_delete_total_witness :
    List.Sublist (deleteHistoryItem (some (some [wItemA, wItemB])) true "a")
      (getHistory (some (some [wItemA, wItemB])))
    ∧ ∀ item, item ∈ deleteHistoryItem (some (some [wItemA, wItemB])) true "a"
        ↔ item ∈ getHistory (some (some [wItemA, wItemB])) ∧ item.id ≠ "a" :=
  (history_read_delete_total (some (some [wItemA, wItemB])) "a" true).2.2.1 rfl

/-- C7: when the UI key is absent or trims to empty and every environment
fallback is absent or empty, `analyzeBlueprint` fails before any request with
an error whose message begins with `API_KEY_MISSING`; conversely a non-empty
trimmed UI key takes precedence over the environment. -/
theorem analyzeBlueprint_api_key (config : AnalysisConfig) (env : ApiEnv) :
    ((truthyStr env.importMetaViteApiKey = false ∧ truthyStr env.processViteApiKey = false
        ∧ truthyStr env.processReactAppApiKey = false ∧ truthyStr env.processApiKey = false
        ∧ truthyStr env.windowApiKey = false) →
      (config.apiKey.map String.trim).getD "" = "" →
      analyzeBlueprintKeyCheck config env = .missingKey API_KEY_MISSING_MESSAGE
        ∧ listStartsWith API_KEY_MISSING_MESSAGE.data "API_KEY_MISSING".data = true)
    ∧ (∀ s, config.apiKey = some s → s.trim ≠ "" →
        analyzeBlueprintKeyCheck config env = .request s.trim) := by
  constructor
  · rintro ⟨e1, e2, e3, e4, e5⟩ hui
    have henv : getEnvApiKey env = "" := by
      simp [getEnvApiKey, e1, e2, e3, e4, e5]
    have heff : effectiveApiKey config env = "" := by
      simp [effectiveApiKey, hui, henv]
    exact ⟨by simp [analyzeBlueprintKeyCheck, heff], by decide⟩
  · intro s hs hne
    have heff : effectiveApiKey config env = s.trim := by
      simp [effectiveApiKey, hs, hne]
    simp [analyzeBlueprintKeyCheck, heff, hne]

/-- C7 witness: a blank UI key and an empty environment produce the
missing-key failure. -/
theorem analyzeBlueprint_api_key_witness :
    analyzeBlueprintKeyCheck wConfig wEnv = .missingKey API_KEY_MISSING_MESSAGE
    ∧ listStartsWith API_KEY_MISSING_MESSAGE.data "API_KEY_MISSING".data = true :=
  (analyzeBlueprint_api_key wConfig wEnv).1 (by decide)
    (by set_option maxRecDepth 4000 in decide)

/-- C8 counterexample: a non-PDF file whose FileReader read fails is rejected
with the reader's error event, so it does not resolve at all, against the
claim that every non-PDF file resolves with its own mime type and content. -/
theorem fileToGenerativePart_reader_error_counterexample :
    wReaderFail.type = "image/png"
    ∧ fileToGenerativePart wReaderFail = FilePart.rejectedEvent
    ∧ ¬ ∃ base64 mimeType,
        fileToGenerativePart wReaderFail = FilePart.resolved base64 mimeType := by
  refine ⟨rfl, rfl, ?_⟩
  rintro ⟨b, m, hcontra⟩
  simp [fileToGenerativePart, wReaderFail] at hcontra

/-- C8 (amended): a PDF upload is resolved as the JPEG rendering of its first
page, or rejected with the PDF-conversion error when that pipeline fails; a
non-PDF upload is resolved with its own mime type and base64 content when the
FileReader read succeeds, and rejected with the reader's error event when it
fails. -/
theorem fileToGenerativePart_cases (file : BrowserFile) :
    (file.type = "application/pdf" →
      (∀ dataUrl, file.pdfRenderDataUrl = some dataUrl →
        fileToGenerativePart file = .resolved (dataUrlPayload dataUrl) "image/jpeg")
      ∧ (file.pdfRenderDataUrl = none →
        fileToGenerativePart file = .rejected PDF_ERROR_MESSAGE))
    ∧ (file.type ≠ "application/pdf" →
      (∀ dataUrl, file.readerDataUrl = some dataUrl →
        fileToGenerativePart file = .resolved (dataUrlPayload dataUrl) file.type)
      ∧ (file.readerDataUrl = none →
        fileToGenerativePart file = .rejectedEvent)) := by
  constructor
  · intro hpdf
    constructor
    · intro dataUrl hd
      simp [fileToGenerativePart, hpdf, hd]
    · intro hd
      simp [fileToGenerativePart, hpdf, hd]
  · intro hnot
    constructor
    · intro dataUrl hd
      simp [fileToGenerativePart, hnot, hd]
    · intro hd
      simp [fileToGenerativePart, hnot, hd]

/-- C8 witness: a successfully rasterised PDF resolves as a JPEG part, and a
successfully read PNG resolves with its own mime type. -/
theorem fileToGenerativePart_cases_witness :
    fileToGenerativePart wPdfFile
      = .resolved (dataUrlPayload "data:image/jpeg;base64,QUJD") "image/jpeg"
    ∧ fileToGenerativePart wPngFile
      = .resolved (dataUrlPayload "data:image/png;base64,QUJD") wPngFile.type :=
  ⟨((fileToGenerativePart_cases wPdfFile).1 rfl).1 "data:image/jpeg;base64,QUJD" rfl,
    ((fileToGenerativePart_cases wPngFile).2 (by decide)).1
      "data:image/png;base64,QUJD" rfl⟩

/-- C9: one `handleAnalyze` invocation calls `analyzeBlueprint` at most once
(exactly once when file conversion succeeds) and issues at most one network
request (exactly one when a key resolves); every failure — a rejected file
conversion or a throw inside `analyzeBlueprint` (missing key, network error,
absent response text, parse error, all of which are `threw` outcomes) — ends
in the ERROR state with a classified message, and a conversion failure issues
no call at all. -/
theorem handleAnalyze_single_call (conv : FilePart) (config : AnalysisConfig)
    (env : ApiEnv) (net : NetworkOutcome)
    (parseOutcome : Except JsError EstimationResult) :
    (handleAnalyze conv config env net parseOutcome).analyzeCalls ≤ 1
    ∧ (handleAnalyze conv config env net parseOutcome).networkRequests
        ≤ (handleAnalyze conv config env net parseOutcome).analyzeCalls
    ∧ (∀ b m, conv = .resolved b m →
        (handleAnalyze conv config env net parseOutcome).analyzeCalls = 1)
    ∧ (∀ b m k, conv = .resolved b m →
        analyzeBlueprintKeyCheck config env = .request k →
        (handleAnalyze conv config env net parseOutcome).networkRequests = 1)
    ∧ (∀ m, conv = .rejected m →
        (handleAnalyze conv config env net parseOutcome).finalState = AppState.ERROR
        ∧ (handleAnalyze conv config env net parseOutcome).errorMsg ≠ none
        ∧ (handleAnalyze conv config env net parseOutcome).analyzeCalls = 0)
    ∧ (conv = .rejectedEvent →
        (handleAnalyze conv config env net parseOutcome).finalState = AppState.ERROR
        ∧ (handleAnalyze conv config env net parseOutcome).errorMsg ≠ none
        ∧ (handleAnalyze conv config env net parseOutcome).analyzeCalls = 0)
    ∧ (∀ b m e n, conv = .resolved b m →
        analyzeBlueprintRun config env net parseOutcome = .threw e n →
        (handleAnalyze conv config env net parseOutcome).finalState = AppState.ERROR
        ∧ (handleAnalyze conv config env net parseOutcome).errorMsg
            = some (analysisErrorMessage e))
    ∧ ((handleAnalyze conv config env net parseOutcome).finalState = AppState.ERROR →
        (handleAnalyze conv config env net parseOutcome).errorMsg ≠ none) := by
  rcases conv with ⟨b, m⟩ | ⟨m⟩ | -
  · rcases hk : analyzeBlueprintKeyCheck config env with ⟨msg⟩ | ⟨k⟩
    · simp [handleAnalyze, analyzeBlueprintRun, hk]
      intros
      subst_vars
      rfl
    · rcases net with ⟨t⟩ | ⟨e⟩
      · rcases t with - | ⟨s⟩
        · simp [handleAnalyze, analyzeBlueprintRun, hk]
          intros
          subst_vars
          rfl
        · rcases parseOutcome with ⟨e⟩ | ⟨parsed⟩ <;>
            simp [handleAnalyze, analyzeBlueprintRun, hk]
          intros
          subst_vars
          rfl
      · simp [handleAnalyze, analyzeBlueprintRun, hk]
        intros
        subst_vars
        rfl
  · simp [handleAnalyze]
  · simp [handleAnalyze]

/-- C9 witness: with an empty environment and no UI key, the analyze call
throws before any request and the app ends in the ERROR state with the
classified missing-key message. -/
theorem handleAnalyze_single_call_witness :
    (handleAnalyze (FilePart.resolved "QUJD" "image/png") wConfig wEnv
        (NetworkOutcome.success none) (Except.ok wResult)).finalState = AppState.ERROR
    ∧ (handleAnalyze (FilePart.resolved "QUJD" "image/png") wConfig wEnv
        (NetworkOutcome.success none) (Except.ok wResult)).errorMsg
      = some (analysisErrorMessage (errorOfMessage API_KEY_MISSING_MESSAGE)) :=
  (handleAnalyze_single_call (FilePart.resolved "QUJD" "image/png") wConfig wEnv
      (NetworkOutcome.success none) (Except.ok wResult)).2.2.2.2.2.2.1
    "QUJD" "image/png" (errorOfMessage API_KEY_MISSING_MESSAGE) 0 rfl
    (by set_option maxRecDepth 4000 in decide)
